import Mathlib

/-!
Verification development for the skicka rendezvous relay (`src/main.rs`).

The program is an HTTP relay: an uploader POSTs a byte stream, receives a
short generated identifier, and a downloader GETs `/:id` to have the two
live streams spliced together.  The development below is a shallow
embedding of the connection registry, the Send and Receive handlers, the
relay loop and the stale-connection reaper, translated from the Rust
source.  Concurrency is linearized: all registry mutations in the source
happen under a single `Mutex<HashMap<..>>`, so concurrent handler
invocations are modelled as sequential applications to an explicit
registry state.
-/

set_option linter.unusedVariables false

/-- A byte, modelled as a natural number.  Only byte counts and byte
identities matter for the properties below, never machine-width overflow
(the source accumulates into a `u64` that cannot overflow from summing
stream chunk lengths within any reachable run modelled here). -/
abbrev Byte := Nat

/-- One item of a body stream: source type `Result<Bytes, hyper::Error>`
(`main.rs` line 92).  `ok data` is a successfully read chunk of bytes;
`err` is a transport-level read error.  A hyper `Error` carries no payload
bytes, hence `err` has no data field. -/
inductive Chunk where
  | ok (data : List Byte)
  | err
deriving DecidableEq

/-- One event observed by the relay loop's `select!` (`main.rs` lines
261-281): the inbound stream produced a chunk (`file_body.next()` returned
`Some`), the inbound stream ended (`next()` returned `None`), or the
per-chunk timer fired first. -/
inductive RelayEvent where
  | chunk (c : Chunk)
  | endOfStream
  | timeout
deriving DecidableEq

/-- The registry record, source `struct Connection` (`main.rs` lines
89-94).  `idx` is the process-lifetime-unique sequence number,
`file_name` the client-supplied display name (the bytes of the string),
`file_body` the sender's chunk stream.  The one-shot completion sender
`on_completed` is a linear capability rather than data; its behaviour is
modelled by `SignalOutcome`/`sendResponseBody` below. -/
structure Connection where
  idx : Nat
  file_name : Option (List Byte)
  file_body : List Chunk
deriving DecidableEq

/-- The registry map, source `Mutex<HashMap<String, Connection>>`
(`main.rs` line 85), modelled as an association list.  All mutations go
through the operations below, which mirror `HashMap` semantics on lists
whose keys are kept distinct by construction. -/
abbrev Registry := List (String × Connection)

/-- `HashMap::get` / lookup part of `HashMap::remove`. -/
def Registry.get? : Registry → String → Option Connection
  | [], _ => none
  | p :: rest, id => if p.1 == id then some p.2 else Registry.get? rest id

/-- Removal part of `HashMap::remove` (`main.rs` lines 225, 240). -/
def Registry.erase : Registry → String → Registry
  | [], _ => []
  | p :: rest, id =>
      if p.1 == id then Registry.erase rest id else p :: Registry.erase rest id

/-- `HashMap::contains_key` (`main.rs` line 175). -/
def Registry.containsKey (r : Registry) (id : String) : Bool :=
  (Registry.get? r id).isSome

/-- `HashMap::insert` (`main.rs` line 198); replaces any previous binding
of the key, like the source map. -/
def Registry.insert (r : Registry) (id : String) (c : Connection) : Registry :=
  (id, c) :: Registry.erase r id

/-- The process-wide mutable state, source `struct State` (`main.rs` lines
83-87): the registry plus the `next_connection_idx` counter. -/
structure ServerState where
  connections : Registry
  next_connection_idx : Nat
deriving DecidableEq

/-- The id-generation retry loop of `handle_send` (`main.rs` lines
161-179).  `gen k` is the k-th candidate produced by
`names::Generator::default().next()` (the generator is an external
entropy source, supplied as an input); `tries` counts completed generator
invocations, so the source's `tries` counter equals `tries + 1` at its
`tries >= 64` check.  The `fuel` argument only bounds the recursion; with
the initial fuel `64` it is never exhausted before the check fires, since
`tries` grows by one per step.  Returns the chosen id (or `none` for the
overload bail-out) together with the number of generator invocations. -/
def chooseIdGo (gen : Nat → String) (conns : Registry) :
    Nat → Nat → Option String × Nat
  | tries, 0 => (none, tries)
  | tries, fuel + 1 =>
      if 64 ≤ tries + 1 then
        (none, tries)
      else
        let id := gen tries
        if Registry.containsKey conns id then
          chooseIdGo gen conns (tries + 1) fuel
        else
          (some id, tries + 1)

/-- First line of the Send Handler's response (`main.rs` lines 204-210):
the id, prefixed with the configured remote base URL when one is set,
followed by CRLF. -/
def sendFirstLine (remote : Option String) (id : String) : String :=
  (match remote with
   | some r => r ++ "/" ++ id
   | none => id) ++ "\r\n"

/-- Outcome of the Send Handler: `503 Service Unavailable`
(`err_server_overloaded`, body "server overloaded, please try again
later"), or acceptance carrying the chosen id, the assigned sequence
value and the first response line. -/
inductive SendOutcome where
  | overloaded
  | accepted (id : String) (idx : Nat) (firstLine : String)
deriving DecidableEq

/-- Result of one `handle_send` invocation: the outcome, the state after
the critical section, and how many times the Code Generator ran. -/
structure SendResult where
  outcome : SendOutcome
  state : ServerState
  gensUsed : Nat
deriving DecidableEq

/-- The Send Handler's registry critical section, `main.rs` lines 142-211
(`handle_send` up to releasing the lock, plus building the first response
line).  The whole function body runs with `state.connections` locked, so
the capacity check, id generation and insert form one atomic step on
`ServerState`.  `file_name` is the decoded `?name=` query parameter
(parsed by the external `url` crate, supplied as an input). -/
def handle_send (maxActive : Nat) (remote : Option String) (gen : Nat → String)
    (file_name : Option (List Byte)) (file_body : List Chunk)
    (st : ServerState) : SendResult :=
  if maxActive ≤ st.connections.length then
    { outcome := SendOutcome.overloaded, state := st, gensUsed := 0 }
  else
    match chooseIdGo gen st.connections 0 64 with
    | (none, g) => { outcome := SendOutcome.overloaded, state := st, gensUsed := g }
    | (some id, g) =>
        let idx := st.next_connection_idx
        let conn : Connection :=
          { idx := idx, file_name := file_name, file_body := file_body }
        { outcome := SendOutcome.accepted id idx (sendFirstLine remote id),
          state :=
            { connections := Registry.insert st.connections id conn,
              next_connection_idx := st.next_connection_idx + 1 },
          gensUsed := g }

/-- The deferred reap action scheduled by `handle_send` (`main.rs` lines
215-234): after `initial_timeout`, under the registry lock, remove the
record only if one is still present under `id` and its `idx` matches the
scheduled one (`connections.get(&id).map_or(false, |c| c.idx == idx)`).
Returns whether removal occurred together with the new registry. -/
def reap_if_stale (conns : Registry) (id : String) (idx : Nat) : Bool × Registry :=
  let is_stale := ((Registry.get? conns id).map fun c => c.idx == idx).getD false
  if is_stale then (true, Registry.erase conns id) else (false, conns)

/-- Result of the relay loop (`main.rs` lines 253-294): the chunks yielded
downstream in order, the terminal reason (`none` when the supplied event
prefix ended before any terminal event — a still-running relay), the final
`transferred_bytes` counter, and how many events were consumed. -/
structure RelayResult where
  out : List Chunk
  reason : Option String
  transferred : Nat
  consumed : Nat
deriving DecidableEq

/-- The relay loop of `handle_recv` (`main.rs` lines 253-282), as a
function of the observed event sequence.  Per iteration: a successfully
read chunk's length is added to `transferred_bytes` and, if the total has
reached `max_transfer_size`, the loop breaks with reason
"reached transfer size limit" without yielding that chunk; otherwise the
chunk (ok or err — the `if let Ok` guard skips counting for errors) is
yielded; end-of-stream breaks with "transfer completed"; a chunk-timer
expiry breaks with "reached chunk time limit". -/
def relaySteps (maxSize : Nat) : Nat → List RelayEvent → RelayResult
  | transferred, [] =>
      { out := [], reason := none, transferred := transferred, consumed := 0 }
  | transferred, RelayEvent.chunk (Chunk.ok data) :: evs =>
      let t := transferred + data.length
      if maxSize ≤ t then
        { out := [], reason := some "reached transfer size limit",
          transferred := t, consumed := 1 }
      else
        let r := relaySteps maxSize t evs
        { out := Chunk.ok data :: r.out, reason := r.reason,
          transferred := r.transferred, consumed := r.consumed + 1 }
  | transferred, RelayEvent.chunk Chunk.err :: evs =>
      let r := relaySteps maxSize transferred evs
      { out := Chunk.err :: r.out, reason := r.reason,
        transferred := r.transferred, consumed := r.consumed + 1 }
  | transferred, RelayEvent.endOfStream :: _ =>
      { out := [], reason := some "transfer completed",
        transferred := transferred, consumed := 1 }
  | transferred, RelayEvent.timeout :: _ =>
      { out := [], reason := some "reached chunk time limit",
        transferred := transferred, consumed := 1 }

/-- A full relay run: the loop started with `transferred_bytes = 0`
(`main.rs` line 254). -/
def relayRun (maxSize : Nat) (evs : List RelayEvent) : RelayResult :=
  relaySteps maxSize 0 evs

/-- Total payload bytes of the successfully read chunks of a list; error
chunks carry no bytes. -/
def okBytes : List Chunk → Nat
  | [] => 0
  | Chunk.ok d :: cs => d.length + okBytes cs
  | Chunk.err :: cs => okBytes cs

/-- The chunks carried by a list of relay events. -/
def chunksOf : List RelayEvent → List Chunk
  | [] => []
  | RelayEvent.chunk c :: evs => c :: chunksOf evs
  | RelayEvent.endOfStream :: evs => chunksOf evs
  | RelayEvent.timeout :: evs => chunksOf evs

/-- The error chunks of a list, in order. -/
def errChunks : List Chunk → List Chunk
  | [] => []
  | Chunk.err :: cs => Chunk.err :: errChunks cs
  | Chunk.ok _ :: cs => errChunks cs

/-- Observable items of the relay stream, in order: the yielded chunks,
and the firing of the completion signal (`on_completed.send(())`,
`main.rs` line 292). -/
inductive TraceItem where
  | chunk (c : Chunk)
  | signal
deriving DecidableEq

/-- The observable trace of the relay stream (`main.rs` lines 253-294):
every yielded chunk in order, then — once a terminal reason was reached —
the completion-signal send, which the source performs exactly once after
the loop breaks. -/
def relayTrace (maxSize : Nat) (evs : List RelayEvent) : List TraceItem :=
  let r := relayRun maxSize evs
  r.out.map TraceItem.chunk ++
    (match r.reason with
     | some _ => [TraceItem.signal]
     | none => [])

/-- How the Send Handler's completion oneshot resolves.  Modelled from the
tokio `oneshot` semantics used at `main.rs` lines 182, 211, 292: the
receiver resolves exactly once, either because the relay sent `()`
(`fired`) or because the sender half was dropped — record reaped or relay
task dropped (`dropped`, `recv` yields `Err(RecvError)`). -/
inductive SignalOutcome where
  | fired
  | dropped
deriving DecidableEq

/-- `on_completed_rx.into_stream()` (`main.rs` line 211): a stream that
yields exactly one item (the `Result` of the oneshot) in both outcomes,
then ends. -/
def oneshotRecvStream (o : SignalOutcome) : List SignalOutcome := [o]

/-- The Send Handler's streaming response body (`main.rs` lines 210-211):
the first line, chained with the completion stream mapped to the empty
string (the final empty terminator); the body ends right after that
terminator. -/
def sendResponseBody (firstLine : String) (o : SignalOutcome) : List String :=
  [firstLine] ++ (oneshotRecvStream o).map fun _ => ""

/-- Valid byte of an HTTP header value, as enforced by the `http` crate's
`HeaderValue` parsing used by `Response::builder().header(..)` at
`main.rs` lines 296-305.  Modelled from that external crate: visible
bytes 32..=255 except DEL (127), plus horizontal tab (9). -/
def validHeaderByte (b : Byte) : Bool :=
  decide ((32 ≤ b ∧ b ≠ 127) ∨ b = 9)

/-- The bytes of an ASCII string literal. -/
def asciiBytes (s : String) : List Byte :=
  s.data.map Char.toNat

/-- The `Content-Disposition` header value built at `main.rs` line 301:
`attachment; filename="<display name>"`, embedding the client-supplied
name verbatim (34 is the double-quote byte). -/
def contentDispositionValue (name : List Byte) : List Byte :=
  asciiBytes "attachment; filename=" ++ [34] ++ name ++ [34]

/-- The header-construction step of `handle_recv` (`main.rs` lines
296-307): when a display name is present, set the `Content-Disposition`
header to the value above; `none` (the result of `.body(..).unwrap()`
when the builder holds an invalid header value) models the panic. -/
def buildRecvResponse (file_name : Option (List Byte)) :
    Option (List (String × List Byte)) :=
  match file_name with
  | none => some []
  | some name =>
      let v := contentDispositionValue name
      if v.all validHeaderByte then
        some [("content-disposition", v)]
      else
        none

/-- HTTP request methods distinguished by the router (`main.rs` lines
103-119); everything else behaves like `other`. -/
inductive HttpMethod where
  | get
  | post
  | put
  | other
deriving DecidableEq

/-- An incoming request, as far as the router inspects it.  `nameParam` is
the decoded `?name=` parameter (extracted by the external `url` crate from
`query`, supplied as an input); `query` itself is only inspected for its
length by `validate_request`. -/
structure HttpRequest where
  method : HttpMethod
  path : String
  query : Option String
  nameParam : Option (List Byte)
  body : List Chunk
deriving DecidableEq

/-- The responses the router can produce, by status and the data each
carries.  `recvFused c` is the Receive Handler's 200 streaming response
after claiming record `c`; `notFound` carries the optional explanatory
body of `err_not_found`. -/
inductive HandleResponse where
  | index (body : String)
  | sendAccepted (firstLine : String)
  | recvFused (c : Connection)
  | notFound (body : Option String)
  | payloadTooLarge
  | overloaded
deriving DecidableEq

/-- HTTP status code of each response (`main.rs` lines 310-331). -/
def respStatus : HandleResponse → Nat
  | HandleResponse.index _ => 200
  | HandleResponse.sendAccepted _ => 200
  | HandleResponse.recvFused _ => 200
  | HandleResponse.notFound _ => 404
  | HandleResponse.payloadTooLarge => 413
  | HandleResponse.overloaded => 503

/-- The claim step of the Receive Handler (`main.rs` lines 239-251):
`state.connections.lock().await.remove(&id)` — atomically fetch and
remove; absence yields `err_not_found("no such connection found\r\n")`,
presence hands the whole record to the relay. -/
def handle_recv (st : ServerState) (id : String) : HandleResponse × ServerState :=
  match Registry.get? st.connections id with
  | none => (HandleResponse.notFound (some "no such connection found\r\n"), st)
  | some c =>
      (HandleResponse.recvFused c,
       { st with connections := Registry.erase st.connections id })

/-- `query.map_or(0, |q| q.len())` of `validate_request`
(`main.rs` line 129). -/
def queryLen (q : Option String) : Nat :=
  match q with
  | some s => s.length
  | none => 0

/-- The router `handle` together with `validate_request` (`main.rs` lines
96-134): reject over-long paths/queries with 413, serve the motto on
`GET /`, dispatch `POST /` to the Send Handler, dispatch `GET /:id` to the
Receive Handler, and answer everything else — including `PUT /` — with
`err_not_found(None)`. -/
def handle (maxUri maxActive : Nat) (remote motto : Option String)
    (gen : Nat → String) (st : ServerState) (req : HttpRequest) :
    HandleResponse × ServerState :=
  if maxUri ≤ req.path.length then
    (HandleResponse.payloadTooLarge, st)
  else if maxUri ≤ queryLen req.query then
    (HandleResponse.payloadTooLarge, st)
  else
    match req.method with
    | HttpMethod.get =>
        if req.path = "/" then
          (HandleResponse.index (motto.getD ""), st)
        else if req.path.startsWith "/" then
          handle_recv st (req.path.drop 1)
        else
          (HandleResponse.notFound none, st)
    | HttpMethod.post =>
        if req.path = "/" then
          let r := handle_send maxActive remote gen req.nameParam req.body st
          (match r.outcome with
           | SendOutcome.overloaded => HandleResponse.overloaded
           | SendOutcome.accepted _ _ fl => HandleResponse.sendAccepted fl,
           r.state)
        else
          (HandleResponse.notFound none, st)
    | _ => (HandleResponse.notFound none, st)

/-- `n` sequential invocations of the Receive Handler's claim step for the
same id — the order in which the registry mutex admits `n` concurrent
`GET /:id` handlers. -/
def handleRecvIter (st : ServerState) (id : String) : Nat → List HandleResponse
  | 0 => []
  | n + 1 =>
      let r := handle_recv st id
      r.1 :: handleRecvIter r.2 id n

/-! ### Concrete fixtures used by witnesses and counterexamples -/

/-- A sample registered connection. -/
def connA : Connection := { idx := 0, file_name := none, file_body := [] }

/-- A sample registered connection with a different sequence number. -/
def connB : Connection := { idx := 7, file_name := none, file_body := [Chunk.err] }

/-- An empty server state. -/
def stEmpty : ServerState := { connections := [], next_connection_idx := 0 }

/-- A server state holding one pending connection under id "swift-otter". -/
def stOne : ServerState :=
  { connections := [("swift-otter", connA)], next_connection_idx := 1 }

/-- A server state whose single pending id is "taken-name". -/
def stTaken : ServerState :=
  { connections := [("taken-name", connB)], next_connection_idx := 8 }

/-- A generator whose first 63 candidates collide with "taken-name" and
whose 64th candidate would be fresh. -/
def genLateFresh (k : Nat) : String :=
  if k = 63 then "fresh-name" else "taken-name"

/-- A generator whose first two candidates collide and whose third is
fresh. -/
def genThird (k : Nat) : String :=
  if k = 2 then "fresh-name" else "taken-name"

/-- A generator that always collides with "taken-name". -/
def genStuck (_ : Nat) : String := "taken-name"

/-- A generator that always proposes "word-pair". -/
def genConst (_ : Nat) : String := "word-pair"

/-! ### Registry lemmas -/

theorem Registry.get?_erase_self (r : Registry) (id : String) :
    Registry.get? (Registry.erase r id) id = none := by
  induction r with
  | nil => rfl
  | cons p rest ih =>
      by_cases h : p.1 == id
      · simpa [Registry.erase, h] using ih
      · simpa [Registry.erase, Registry.get?, h] using ih

theorem Registry.get?_erase_ne (r : Registry) (id id2 : String) (h : id2 ≠ id) :
    Registry.get? (Registry.erase r id) id2 = Registry.get? r id2 := by
  induction r with
  | nil => rfl
  | cons p rest ih =>
      by_cases hp : p.1 == id
      · have hne : (p.1 == id2) = false := by
          have : p.1 = id := by simpa using hp
          simp [this, beq_iff_eq]
          exact fun hh => h hh.symm
        simp [Registry.erase, Registry.get?, hp, hne, ih]
      · by_cases hq : p.1 == id2
        · simp [Registry.erase, Registry.get?, hp, hq]
        · simp [Registry.erase, Registry.get?, hp, hq, ih]

/-! ### Id-generation lemmas -/

theorem chooseIdGo_all_collide (gen : Nat → String) (conns : Registry) :
    ∀ (fuel tries : Nat), tries ≤ 63 → 64 ≤ tries + fuel →
    (∀ i, i < 63 → Registry.containsKey conns (gen i) = true) →
    chooseIdGo gen conns tries fuel = (none, 63) := by
  intro fuel
  induction fuel with
  | zero => intro tries h1 h2 h3; omega
  | succ f ih =>
      intro tries h1 h2 h3
      by_cases h : 64 ≤ tries + 1
      · have ht : tries = 63 := by omega
        subst ht
        simp [chooseIdGo, h]
      · have htl : tries < 63 := by omega
        simp [chooseIdGo, h, h3 tries htl]
        exact ih (tries + 1) (by omega) (by omega) h3

theorem chooseIdGo_first_fresh (gen : Nat → String) (conns : Registry) :
    ∀ (fuel tries j : Nat), tries ≤ j → j < 63 → 64 ≤ tries + fuel →
    Registry.containsKey conns (gen j) = false →
    (∀ i, i < j → Registry.containsKey conns (gen i) = true) →
    chooseIdGo gen conns tries fuel = (some (gen j), j + 1) := by
  intro fuel
  induction fuel with
  | zero => intro tries j h1 h2 h3 h4 h5; omega
  | succ f ih =>
      intro tries j h1 h2 h3 h4 h5
      have h : ¬ 64 ≤ tries + 1 := by omega
      by_cases he : tries = j
      · subst he
        simp [chooseIdGo, h, h4]
      · have htl : tries < j := by omega
        simp [chooseIdGo, h, h5 tries htl]
        exact ih (tries + 1) j (by omega) h2 (by omega) h4 h5

/-! ### Relay-loop lemmas -/

theorem relaySteps_strict (maxSize : Nat) :
    ∀ (evs : List RelayEvent) (t : Nat), t < maxSize →
    okBytes (relaySteps maxSize t evs).out + t < maxSize := by
  intro evs
  induction evs with
  | nil => intro t ht; simpa [relaySteps, okBytes] using ht
  | cons ev rest ih =>
      intro t ht
      match ev with
      | RelayEvent.endOfStream => simpa [relaySteps, okBytes] using ht
      | RelayEvent.timeout => simpa [relaySteps, okBytes] using ht
      | RelayEvent.chunk Chunk.err =>
          have := ih t ht
          simpa [relaySteps, okBytes] using this
      | RelayEvent.chunk (Chunk.ok data) =>
          by_cases hm : maxSize ≤ t + data.length
          · simpa [relaySteps, hm, okBytes] using ht
          · have := ih (t + data.length) (by omega)
            simp [relaySteps, hm, okBytes]
            omega

theorem relaySteps_size_limit (maxSize : Nat) :
    ∀ (cs : List Chunk) (t : Nat), t ≤ maxSize → maxSize < okBytes cs + t →
    (relaySteps maxSize t (cs.map RelayEvent.chunk)).reason =
        some "reached transfer size limit" ∧
    okBytes (relaySteps maxSize t (cs.map RelayEvent.chunk)).out + t ≤ maxSize ∧
    1 ≤ (relaySteps maxSize t (cs.map RelayEvent.chunk)).consumed ∧
    (relaySteps maxSize t (cs.map RelayEvent.chunk)).out =
      cs.take ((relaySteps maxSize t (cs.map RelayEvent.chunk)).consumed - 1) := by
  intro cs
  induction cs with
  | nil => intro t h1 h2; simp [okBytes] at h2; omega
  | cons c rest ih =>
      intro t h1 h2
      match c with
      | Chunk.err =>
          have hrec := ih t h1 (by simpa [okBytes] using h2)
          obtain ⟨hr, hb, hc, ho⟩ := hrec
          refine ⟨by simpa [relaySteps] using hr,
                  by simpa [relaySteps, okBytes] using hb, ?_, ?_⟩
          · simp [relaySteps]
          · simp [relaySteps, ho]
            obtain ⟨k, hk⟩ : ∃ k, (relaySteps maxSize t (rest.map RelayEvent.chunk)).consumed = k + 1 :=
              ⟨_, (Nat.succ_pred_eq_of_pos hc).symm⟩
            simp [hk]
      | Chunk.ok data =>
          by_cases hm : maxSize ≤ t + data.length
          · refine ⟨by simp [relaySteps, hm], ?_, ?_, ?_⟩
            · simp [relaySteps, hm, okBytes]; omega
            · simp [relaySteps, hm]
            · simp [relaySteps, hm]
          · have hrec := ih (t + data.length) (by omega)
              (by simp [okBytes] at h2 ⊢; omega)
            obtain ⟨hr, hb, hc, ho⟩ := hrec
            refine ⟨by simpa [relaySteps, hm] using hr, ?_, ?_, ?_⟩
            · simp [relaySteps, hm, okBytes]
              omega
            · simp [relaySteps, hm]
            · simp [relaySteps, hm, ho]
              obtain ⟨k, hk⟩ : ∃ k, (relaySteps maxSize (t + data.length) (rest.map RelayEvent.chunk)).consumed = k + 1 :=
                ⟨_, (Nat.succ_pred_eq_of_pos hc).symm⟩
              simp [hk]

theorem relaySteps_errs_transferred (maxSize : Nat) :
    ∀ (evs : List RelayEvent) (t : Nat),
    errChunks (relaySteps maxSize t evs).out =
      errChunks (chunksOf (evs.take (relaySteps maxSize t evs).consumed)) ∧
    (relaySteps maxSize t evs).transferred =
      t + okBytes (chunksOf (evs.take (relaySteps maxSize t evs).consumed)) := by
  intro evs
  induction evs with
  | nil => intro t; simp [relaySteps, chunksOf, errChunks, okBytes]
  | cons ev rest ih =>
      intro t
      match ev with
      | RelayEvent.endOfStream =>
          simp [relaySteps, chunksOf, errChunks, okBytes]
      | RelayEvent.timeout =>
          simp [relaySteps, chunksOf, errChunks, okBytes]
      | RelayEvent.chunk Chunk.err =>
          have := ih t
          simp [relaySteps, chunksOf, errChunks, okBytes, List.take_succ_cons]
          exact this
      | RelayEvent.chunk (Chunk.ok data) =>
          by_cases hm : maxSize ≤ t + data.length
          · simp [relaySteps, hm, chunksOf, errChunks, okBytes]
          · have := ih (t + data.length)
            simp [relaySteps, hm, chunksOf, errChunks, okBytes, List.take_succ_cons]
            constructor
            · exact this.1
            · omega

theorem handleRecvIter_absent (id : String) :
    ∀ (n : Nat) (st : ServerState),
    Registry.get? st.connections id = none →
    handleRecvIter st id n =
      List.replicate n (HandleResponse.notFound (some "no such connection found\r\n")) := by
  intro n
  induction n with
  | zero => intro st h; rfl
  | succ m ih =>
      intro st h
      simp [handleRecvIter, handle_recv, h, List.replicate_succ]
      exact ih st h

/-! ### Claim theorems -/

/-- C1: among any number of sequential claim invocations (the order in
which the registry mutex admits concurrent `GET /:id` handlers) for an id
present in the registry, exactly the first one removes and obtains the
connection record, and every other invocation observes absence and gets
the 404 response; the claim step is the single consumption point. -/
theorem at_most_one_claim (st : ServerState) (id : String) (c : Connection)
    (n : Nat) (hid : Registry.get? st.connections id = some c) (hn : 0 < n) :
    handleRecvIter st id n =
      HandleResponse.recvFused c ::
        List.replicate (n - 1)
          (HandleResponse.notFound (some "no such connection found\r\n")) ∧
    respStatus (HandleResponse.recvFused c) = 200 ∧
    respStatus (HandleResponse.notFound (some "no such connection found\r\n")) = 404 := by
  obtain ⟨m, rfl⟩ : ∃ m, n = m + 1 := ⟨n - 1, by omega⟩
  refine ⟨?_, rfl, rfl⟩
  simp [handleRecvIter, handle_recv, hid]
  exact handleRecvIter_absent id m _ (Registry.get?_erase_self st.connections id)

/-- Witness for C1 at a concrete registry: three sequential claims of
"swift-otter" — the first obtains the record, the next two get 404. -/
theorem at_most_one_claim_witness :
    handleRecvIter stOne "swift-otter" 3 =
      HandleResponse.recvFused connA ::
        List.replicate (3 - 1)
          (HandleResponse.notFound (some "no such connection found\r\n")) ∧
    respStatus (HandleResponse.recvFused connA) = 200 ∧
    respStatus (HandleResponse.notFound (some "no such connection found\r\n")) = 404 :=
  at_most_one_claim stOne "swift-otter" connA 3 (by decide) (by decide)

/-- C4: when the number of pending connections has reached
`max_active_connections`, `handle_send` answers 503, runs the Code
Generator zero times, and leaves the state (registry map and sequence
counter) unchanged; the whole function is one critical section on the
registry lock, so the capacity check and the insert cannot interleave
with other registry operations. -/
theorem admission_control (maxActive : Nat) (remote : Option String)
    (gen : Nat → String) (nm : Option (List Byte)) (body : List Chunk)
    (st : ServerState) (h : maxActive ≤ st.connections.length) :
    handle_send maxActive remote gen nm body st =
      { outcome := SendOutcome.overloaded, state := st, gensUsed := 0 } ∧
    respStatus HandleResponse.overloaded = 503 := by
  exact ⟨by simp [handle_send, h], rfl⟩

/-- Witness for C4: with a ceiling of 1 and one pending connection, an
upload is rejected with 503 and the state is untouched. -/
theorem admission_control_witness :
    handle_send 1 none genConst none [] stOne =
      { outcome := SendOutcome.overloaded, state := stOne, gensUsed := 0 } ∧
    respStatus HandleResponse.overloaded = 503 :=
  admission_control 1 none genConst none [] stOne (by decide)

/-- C6: the deferred reap action for a scheduled `(id, idx)` pair removes
the record exactly when one is still present under that id with the same
sequence number, touching no other key; when the id is absent (already
claimed or already reaped) or holds a newer record with a different
sequence number, the registry is left unchanged. -/
theorem stale_reap_guard (conns : Registry) (id : String) (idx : Nat) :
    (∀ c, Registry.get? conns id = some c → c.idx = idx →
      reap_if_stale conns id idx = (true, Registry.erase conns id) ∧
      ∀ id2, id2 ≠ id →
        Registry.get? (Registry.erase conns id) id2 = Registry.get? conns id2) ∧
    (Registry.get? conns id = none →
      reap_if_stale conns id idx = (false, conns)) ∧
    (∀ c, Registry.get? conns id = some c → c.idx ≠ idx →
      reap_if_stale conns id idx = (false, conns)) := by
  refine ⟨?_, ?_, ?_⟩
  · intro c hc hcidx
    refine ⟨by simp [reap_if_stale, hc, hcidx], ?_⟩
    intro id2 h2
    exact Registry.get?_erase_ne conns id id2 h2
  · intro hnone
    simp [reap_if_stale, hnone]
  · intro c hc hcidx
    simp [reap_if_stale, hc, hcidx]

/-- Witness for C6: on a registry holding ("taken-name", idx 7), reaping
("taken-name", 7) removes the record, reaping ("taken-name", 8) is a
no-op, and reaping an absent id is a no-op. -/
theorem stale_reap_guard_witness :
    reap_if_stale stTaken.connections "taken-name" 7 =
      (true, Registry.erase stTaken.connections "taken-name") ∧
    reap_if_stale stTaken.connections "taken-name" 8 =
      (false, stTaken.connections) ∧
    reap_if_stale stTaken.connections "other-name" 7 =
      (false, stTaken.connections) :=
  ⟨((stale_reap_guard stTaken.connections "taken-name" 7).1 connB (by decide)
      (by decide)).1,
   (stale_reap_guard stTaken.connections "taken-name" 8).2.2 connB (by decide)
      (by decide),
   (stale_reap_guard stTaken.connections "other-name" 7).2.1 (by decide)⟩

/-- C2: when a claimed connection's inbound stream carries more than
`max_transfer_size` cumulative bytes (and the chunks arrive, i.e. the
observed events are the stream's chunks), the relay loop terminates with
reason "reached transfer size limit", the chunks yielded downstream are
exactly the chunks read before the limit-triggering one (a prefix of the
stream — everything already read is forwarded, nothing after the limit
is), and at most `max_transfer_size` bytes are forwarded in total. -/
theorem size_enforcement (maxSize : Nat) (cs : List Chunk)
    (h : maxSize < okBytes cs) :
    (relayRun maxSize (cs.map RelayEvent.chunk)).reason =
        some "reached transfer size limit" ∧
    okBytes (relayRun maxSize (cs.map RelayEvent.chunk)).out ≤ maxSize ∧
    (relayRun maxSize (cs.map RelayEvent.chunk)).out =
      cs.take ((relayRun maxSize (cs.map RelayEvent.chunk)).consumed - 1) := by
  have hmain := relaySteps_size_limit maxSize cs 0 (Nat.zero_le _) (by omega)
  exact ⟨hmain.1, by simpa using hmain.2.1, hmain.2.2.2⟩

/-- Witness for C2: a single 3-byte chunk against a 2-byte limit — the
loop stops with the size-limit reason and forwards nothing. -/
theorem size_enforcement_witness :
    (relayRun 2 ([Chunk.ok [9, 9, 9]].map RelayEvent.chunk)).reason =
        some "reached transfer size limit" ∧
    okBytes (relayRun 2 ([Chunk.ok [9, 9, 9]].map RelayEvent.chunk)).out ≤ 2 ∧
    (relayRun 2 ([Chunk.ok [9, 9, 9]].map RelayEvent.chunk)).out =
      [Chunk.ok [9, 9, 9]].take
        ((relayRun 2 ([Chunk.ok [9, 9, 9]].map RelayEvent.chunk)).consumed - 1) :=
  size_enforcement 2 [Chunk.ok [9, 9, 9]] (by decide)

/-- C9: the payload bytes the relay loop ever yields downstream total
strictly less than `max_transfer_size` (for any positive configured
limit): the chunk whose bytes bring the cumulative count to the limit or
beyond is counted but never yielded.  In particular a single chunk of
exactly `max_transfer_size` bytes results in zero forwarded payload
bytes. -/
theorem strict_size_bound (maxSize : Nat) (evs : List RelayEvent)
    (h : 0 < maxSize) :
    okBytes (relayRun maxSize evs).out < maxSize ∧
    ∀ data : List Byte, data.length = maxSize →
      (relayRun maxSize [RelayEvent.chunk (Chunk.ok data)]).out = [] := by
  constructor
  · simpa [relayRun] using relaySteps_strict maxSize evs 0 h
  · intro data hd
    simp [relayRun, relaySteps, hd]

/-- Witness for C9: with a 4-byte limit, a run forwarding a 2-byte chunk
stays strictly below the limit, and a single chunk of exactly 4 bytes is
counted but yields nothing downstream. -/
theorem strict_size_bound_witness :
    okBytes (relayRun 4 [RelayEvent.chunk (Chunk.ok [1, 2]),
        RelayEvent.endOfStream]).out < 4 ∧
    (relayRun 4 [RelayEvent.chunk (Chunk.ok [5, 5, 5, 5])]).out = [] :=
  ⟨(strict_size_bound 4 [RelayEvent.chunk (Chunk.ok [1, 2]),
      RelayEvent.endOfStream] (by decide)).1,
   (strict_size_bound 4 [RelayEvent.chunk (Chunk.ok [1, 2]),
      RelayEvent.endOfStream] (by decide)).2 [5, 5, 5, 5] (by decide)⟩

/-- C3 counterexample: the claim says a read-error chunk is "counted
toward the cumulative transferred-byte total (for the max_transfer_size
check)".  In the source the `transferred_bytes += chunk.len()` update sits
inside `if let Ok(chunk)`, and a hyper read error carries no bytes at all,
so an error chunk contributes nothing to the total: the run
[err, ok [7,7,7], end] ends with `transferred = 3`, exactly the total of
the run without the error chunk — while the error chunk itself is
forwarded downstream. -/
theorem transport_error_count_counterexample :
    (relayRun 100 [RelayEvent.chunk Chunk.err,
        RelayEvent.chunk (Chunk.ok [7, 7, 7]),
        RelayEvent.endOfStream]).transferred =
      (relayRun 100 [RelayEvent.chunk (Chunk.ok [7, 7, 7]),
        RelayEvent.endOfStream]).transferred ∧
    (relayRun 100 [RelayEvent.chunk Chunk.err,
        RelayEvent.chunk (Chunk.ok [7, 7, 7]),
        RelayEvent.endOfStream]).transferred = 3 ∧
    Chunk.err ∈ (relayRun 100 [RelayEvent.chunk Chunk.err,
        RelayEvent.chunk (Chunk.ok [7, 7, 7]),
        RelayEvent.endOfStream]).out := by
  decide

/-- C3 (amended): every chunk that arrives from the inbound stream as a
read error is forwarded downstream as an error chunk, in order, never
silently dropped — the error chunks of the forwarded output are exactly
the error chunks among the consumed events; but error chunks are not
counted toward the cumulative transferred-byte total, which equals the
sum of the lengths of the successfully read chunks consumed. -/
theorem transport_error_propagation (maxSize : Nat) (evs : List RelayEvent) :
    errChunks (relayRun maxSize evs).out =
      errChunks (chunksOf (evs.take (relayRun maxSize evs).consumed)) ∧
    (relayRun maxSize evs).transferred =
      okBytes (chunksOf (evs.take (relayRun maxSize evs).consumed)) := by
  have hmain := relaySteps_errs_transferred maxSize evs 0
  exact ⟨by simpa [relayRun] using hmain.1, by simpa [relayRun] using hmain.2⟩

theorem count_signal_map_chunk (l : List Chunk) :
    (l.map TraceItem.chunk).count TraceItem.signal = 0 := by
  induction l with
  | nil => rfl
  | cons c rest ih =>
      have hb : (TraceItem.chunk c == TraceItem.signal) = false := rfl
      simp [List.count_cons, hb, ih]

/-- C7: on every terminal path of the relay loop (end-of-stream, size
limit, chunk timeout) the completion signal is fired exactly once, after
the last forwarded chunk; and the Send Handler's held-open response body
terminates — emitting its final empty terminator and closing — both when
the signal fires and when the sender half is dropped (record reaped), so
it never hangs forever. -/
theorem completion_rendezvous (maxSize : Nat) (evs : List RelayEvent)
    (h : (relayRun maxSize evs).reason.isSome = true) :
    relayTrace maxSize evs =
      (relayRun maxSize evs).out.map TraceItem.chunk ++ [TraceItem.signal] ∧
    (relayTrace maxSize evs).count TraceItem.signal = 1 ∧
    ∀ (fl : String) (o : SignalOutcome), sendResponseBody fl o = [fl, ""] := by
  obtain ⟨r, hr⟩ := Option.isSome_iff_exists.mp h
  have htrace : relayTrace maxSize evs =
      (relayRun maxSize evs).out.map TraceItem.chunk ++ [TraceItem.signal] := by
    simp [relayTrace, hr]
  refine ⟨htrace, ?_, ?_⟩
  · rw [htrace, List.count_append, count_signal_map_chunk]
    rfl
  · intro fl o
    rfl

/-- Witness for C7: a run that ends by end-of-stream traces its one chunk
and then exactly one completion-signal firing; the held-open send body
closes with the empty terminator for both oneshot outcomes. -/
theorem completion_rendezvous_witness :
    relayTrace 10 [RelayEvent.chunk (Chunk.ok [1]), RelayEvent.endOfStream] =
      (relayRun 10 [RelayEvent.chunk (Chunk.ok [1]),
        RelayEvent.endOfStream]).out.map TraceItem.chunk ++ [TraceItem.signal] ∧
    (relayTrace 10 [RelayEvent.chunk (Chunk.ok [1]),
        RelayEvent.endOfStream]).count TraceItem.signal = 1 ∧
    sendResponseBody "swift-otter\r\n" SignalOutcome.fired =
      ["swift-otter\r\n", ""] ∧
    sendResponseBody "swift-otter\r\n" SignalOutcome.dropped =
      ["swift-otter\r\n", ""] := by
  have hmain := completion_rendezvous 10
    [RelayEvent.chunk (Chunk.ok [1]), RelayEvent.endOfStream] (by decide)
  exact ⟨hmain.1, hmain.2.1, hmain.2.2 _ _, hmain.2.2 _ _⟩

/-- C5 counterexample: the claim allows the Code Generator up to 64
attempts, so a generator whose first 63 candidates collide but whose 64th
candidate ("fresh-name", not in the registry) would be fresh should get
the record inserted.  The source increments `tries` and bails at
`tries >= 64` before generating, so only 63 candidates are ever produced
and this upload is rejected with 503 instead. -/
theorem bounded_retry_counterexample :
    (handle_send 512 none genLateFresh none [] stTaken).outcome =
      SendOutcome.overloaded ∧
    (handle_send 512 none genLateFresh none [] stTaken).gensUsed = 63 ∧
    Registry.containsKey stTaken.connections (genLateFresh 63) = false := by
  decide

/-- C5 (amended): under capacity, `handle_send` invokes the Code
Generator at most 63 times — the `tries` counter is incremented and
checked against 64 before each generation, so a 64th generation never
happens.  If all 63 candidates collide with live records, it responds 503
exactly as for capacity exhaustion and inserts nothing; otherwise the
first non-colliding candidate is assigned the next sequence value, the
record is stored under it, and the counter advances. -/
theorem bounded_retry_insertion (maxActive : Nat) (remote : Option String)
    (gen : Nat → String) (nm : Option (List Byte)) (body : List Chunk)
    (st : ServerState) (hcap : st.connections.length < maxActive) :
    ((∀ i, i < 63 → Registry.containsKey st.connections (gen i) = true) →
      handle_send maxActive remote gen nm body st =
        { outcome := SendOutcome.overloaded, state := st, gensUsed := 63 }) ∧
    (∀ j, j < 63 → Registry.containsKey st.connections (gen j) = false →
      (∀ i, i < j → Registry.containsKey st.connections (gen i) = true) →
      handle_send maxActive remote gen nm body st =
        { outcome := SendOutcome.accepted (gen j) st.next_connection_idx
            (sendFirstLine remote (gen j)),
          state :=
            { connections := Registry.insert st.connections (gen j)
                { idx := st.next_connection_idx, file_name := nm,
                  file_body := body },
              next_connection_idx := st.next_connection_idx + 1 },
          gensUsed := j + 1 }) := by
  have hcap' : ¬ maxActive ≤ st.connections.length := by omega
  constructor
  · intro hall
    have hchoose := chooseIdGo_all_collide gen st.connections 64 0
      (by omega) (by omega) hall
    simp [handle_send, hcap', hchoose]
  · intro j hj hfresh hbefore
    have hchoose := chooseIdGo_first_fresh gen st.connections 64 0 j
      (Nat.zero_le _) hj (by omega) hfresh hbefore
    simp [handle_send, hcap', hchoose]

/-- Witness for C5 (amended): against a registry holding "taken-name", a
generator that is fresh on its third call gets "fresh-name" stored with
the next sequence value after 3 generator calls, and an always-colliding
generator is rejected with 503 after exactly 63 calls. -/
theorem bounded_retry_insertion_witness :
    handle_send 512 none genThird none [] stTaken =
      { outcome := SendOutcome.accepted (genThird 2) stTaken.next_connection_idx
          (sendFirstLine none (genThird 2)),
        state :=
          { connections := Registry.insert stTaken.connections (genThird 2)
              { idx := stTaken.next_connection_idx, file_name := none,
                file_body := [] },
            next_connection_idx := stTaken.next_connection_idx + 1 },
        gensUsed := 2 + 1 } ∧
    handle_send 512 none genStuck none [] stTaken =
      { outcome := SendOutcome.overloaded, state := stTaken, gensUsed := 63 } :=
  ⟨(bounded_retry_insertion 512 none genThird none [] stTaken (by decide)).2
      2 (by decide) (by decide) (by decide),
   (bounded_retry_insertion 512 none genStuck none [] stTaken (by decide)).1
      (by decide)⟩

/-- C8 counterexample: the claim says `PUT /` also starts an upload
(responding 200 with the identifier line, or 503 at capacity).  The
router matches only `(&Method::POST, "/")`; a PUT request falls through
to the catch-all arm and gets `err_not_found(None)` — 404, with the state
untouched and nothing registered. -/
theorem upload_route_counterexample :
    handle 1024 512 none none genConst stEmpty
        { method := HttpMethod.put, path := "/", query := none,
          nameParam := none, body := [] } =
      (HandleResponse.notFound none, stEmpty) ∧
    respStatus (handle 1024 512 none none genConst stEmpty
        { method := HttpMethod.put, path := "/", query := none,
          nameParam := none, body := [] }).1 = 404 := by
  decide

/-- C8 (amended): only `POST /` (with optional `?name=`) starts an
upload; `PUT /` is not routed and yields 404 Not Found.  A successful
POST responds 200 with a streaming body whose first line is the
identifier — prefixed with the configured remote base URL when one is
set, i.e. "<remote>/<id>" — followed by CRLF, and the body then blocks,
terminating with a final empty string once the completion signal resolves;
at capacity (or if the id space is exhausted within the retry bound) the
response is 503 and nothing is registered. -/
theorem upload_route (maxUri maxActive : Nat) (remote motto : Option String)
    (gen : Nat → String) (st : ServerState) (q : Option String)
    (nm : Option (List Byte)) (body : List Chunk)
    (hp : 1 < maxUri) (hq : queryLen q < maxUri) :
    (st.connections.length < maxActive →
      Registry.containsKey st.connections (gen 0) = false →
      handle maxUri maxActive remote motto gen st
          { method := HttpMethod.post, path := "/", query := q,
            nameParam := nm, body := body } =
        (HandleResponse.sendAccepted (sendFirstLine remote (gen 0)),
         { connections := Registry.insert st.connections (gen 0)
             { idx := st.next_connection_idx, file_name := nm,
               file_body := body },
           next_connection_idx := st.next_connection_idx + 1 }) ∧
      respStatus (HandleResponse.sendAccepted (sendFirstLine remote (gen 0))) = 200 ∧
      ∀ o, sendResponseBody (sendFirstLine remote (gen 0)) o =
        [sendFirstLine remote (gen 0), ""]) ∧
    (maxActive ≤ st.connections.length →
      handle maxUri maxActive remote motto gen st
          { method := HttpMethod.post, path := "/", query := q,
            nameParam := nm, body := body } =
        (HandleResponse.overloaded, st) ∧
      respStatus HandleResponse.overloaded = 503) ∧
    (st.connections.length < maxActive →
      (∀ i, i < 63 → Registry.containsKey st.connections (gen i) = true) →
      handle maxUri maxActive remote motto gen st
          { method := HttpMethod.post, path := "/", query := q,
            nameParam := nm, body := body } =
        (HandleResponse.overloaded, st)) ∧
    (handle maxUri maxActive remote motto gen st
        { method := HttpMethod.put, path := "/", query := q,
          nameParam := nm, body := body } =
      (HandleResponse.notFound none, st) ∧
    respStatus (HandleResponse.notFound none) = 404) := by
  have hp' : ¬ maxUri ≤ String.length "/" := by
    simp [String.length]; omega
  have hq' : ¬ maxUri ≤ queryLen q := by omega
  refine ⟨?_, ?_, ?_, ?_⟩
  · intro hcap hfresh
    have hcap' : ¬ maxActive ≤ st.connections.length := by omega
    have hchoose := chooseIdGo_first_fresh gen st.connections 64 0 0
      (Nat.le_refl 0) (by omega) (by omega) hfresh (by omega)
    refine ⟨?_, rfl, fun o => rfl⟩
    simp [handle, hp', hq', handle_send, hcap', hchoose]
  · intro hcap
    exact ⟨by simp [handle, hp', hq', handle_send, hcap], rfl⟩
  · intro hcap hall
    have hcap' : ¬ maxActive ≤ st.connections.length := by omega
    have hchoose := chooseIdGo_all_collide gen st.connections 64 0
      (by omega) (by omega) hall
    simp [handle, hp', hq', handle_send, hcap', hchoose]
  · exact ⟨by simp [handle, hp', hq'], rfl⟩

/-- Witness for C8 (amended): from fresh state with a remote base URL,
POST / registers "word-pair" and answers with "remote/word-pair\r\n";
at capacity POST / answers 503; PUT / answers 404. -/
theorem upload_route_witness :
    handle 1024 512 (some "https:\x2f\x2fs.example") none genConst stEmpty
        { method := HttpMethod.post, path := "/", query := some "name=hi.txt",
          nameParam := some (asciiBytes "hi.txt"), body := [Chunk.ok [104, 105]] } =
      (HandleResponse.sendAccepted
         (sendFirstLine (some "https:\x2f\x2fs.example") (genConst 0)),
       { connections := Registry.insert stEmpty.connections (genConst 0)
           { idx := stEmpty.next_connection_idx,
             file_name := some (asciiBytes "hi.txt"),
             file_body := [Chunk.ok [104, 105]] },
         next_connection_idx := stEmpty.next_connection_idx + 1 }) ∧
    handle 1024 1 none none genConst stOne
        { method := HttpMethod.post, path := "/", query := none,
          nameParam := none, body := [] } =
      (HandleResponse.overloaded, stOne) ∧
    handle 1024 512 none none genConst stEmpty
        { method := HttpMethod.put, path := "/", query := none,
          nameParam := none, body := [] } =
      (HandleResponse.notFound none, stEmpty) := by
  refine ⟨?_, ?_, ?_⟩
  · exact ((upload_route 1024 512 (some "https:\x2f\x2fs.example") none genConst
      stEmpty (some "name=hi.txt") (some (asciiBytes "hi.txt"))
      [Chunk.ok [104, 105]] (by decide) (by decide)).1 (by decide) (by decide)).1
  · exact ((upload_route 1024 1 none none genConst stOne none none []
      (by decide) (by decide)).2.1 (by decide)).1
  · exact (upload_route 1024 512 none none genConst stEmpty none none []
      (by decide) (by decide)).2.2.2.1

/-- C10: the Receive Handler embeds the client-supplied display name
verbatim into `attachment; filename="<display name>"` and unwraps the
response-builder result.  For every display name whose bytes are all
valid in an HTTP header value, the response carries exactly that header
with the name unescaped; for a display name containing a newline (a byte
invalid in a header value), the builder fails and the unwrap panics
instead of returning a response. -/
theorem header_construction (name : List Byte)
    (h : name.all validHeaderByte = true) :
    buildRecvResponse (some name) =
      some [("content-disposition", contentDispositionValue name)] ∧
    buildRecvResponse (some [10]) = none := by
  constructor
  · have hall : (contentDispositionValue name).all validHeaderByte = true := by
      simp [contentDispositionValue, List.all_append, h]
      decide
    simp [buildRecvResponse, hall]
  · decide

/-- Witness for C10: the name "hi.txt" (all header-valid bytes) yields
the verbatim Content-Disposition header, while the one-byte name
consisting of a newline makes response construction panic. -/
theorem header_construction_witness :
    buildRecvResponse (some (asciiBytes "hi.txt")) =
      some [("content-disposition",
             contentDispositionValue (asciiBytes "hi.txt"))] ∧
    buildRecvResponse (some [10]) = none :=
  header_construction (asciiBytes "hi.txt") (by decide)
